import Mathlib

/-!
Verification development for the exocortex-obsidian-plugin repository.

Two parts are modelled:

* the agent discovery and extraction engine described by the specification
  (Known-Agent Registry, Pattern Extractor, Source Scanner, Fallback
  Provider, Publisher).  The engine's implementation file is not part of
  the staged sources (only the REST client example is), so the engine is
  modelled from the specification's own words; every such definition is
  marked `Modelled from the spec:` in its doc comment.

* the Python REST client example `src/examples/python-client.py`
  (`ExocortexClient`), embedded directly from the source: each method is a
  pure function from the client value and the arguments to the HTTP request
  it issues, together with the response-handling continuation
  (`raise_for_status` followed by returning the parsed JSON body).
-/

namespace Exo

/-! ### Character and string utilities -/

/-- Characters allowed inside a hyphenated identifier. -/
def isIdentChar (c : Char) : Bool := c.isAlphanum || c == '-' || c == '_'

/-- Strip whitespace from both ends of a character list (Python `str.strip`). -/
def trimChars (cs : List Char) : List Char :=
  ((cs.dropWhile Char.isWhitespace).reverse.dropWhile Char.isWhitespace).reverse

/-- Strip whitespace from both ends of a string. -/
def trimS (s : String) : String := String.mk (trimChars s.data)

/-- Split a character list on a separator character. -/
def splitOnChar (sep : Char) : List Char → List (List Char)
  | [] => [[]]
  | c :: rest =>
    if c = sep then [] :: splitOnChar sep rest
    else
      match splitOnChar sep rest with
      | l :: ls => (c :: l) :: ls
      | [] => [[c]]

/-- Lexicographic comparison of character lists by code point. -/
def charListLe : List Char → List Char → Bool
  | [], _ => true
  | _ :: _, [] => false
  | a :: as, b :: bs =>
    if a.toNat < b.toNat then true else if a = b then charListLe as bs else false

/-- Ordinary case-sensitive lexicographic string order (Python `sorted`). -/
def strLe (a b : String) : Bool := charListLe a.data b.data

/-- Substring test on character lists. -/
def listContainsSub (needle : List Char) : List Char → Bool
  | [] => needle.isEmpty
  | c :: rest => List.isPrefixOf needle (c :: rest) || listContainsSub needle rest

/-- Lower-case every character (for case-insensitive matching). -/
def lowerList (cs : List Char) : List Char := cs.map Char.toLower

/-! ### Known-Agent Registry -/

/-- Modelled from the spec: the Known-Agent Registry, "a static allow-list of
canonical agent names used to validate ambiguous matches"; a fixed, hardcoded
list shipped with the engine, covering the baseline capability roster and
registry-known short names that do not literally contain "agent"
(e.g. `code-searcher`). -/
def knownAgents : List String :=
  ["code-searcher", "qa-engineer", "error-diagnostician", "orchestrator",
   "architect", "performance-optimizer", "security-auditor", "product-planner",
   "deployer", "test-fixer", "code-reviewer", "researcher", "scheduler"]

/-- Modelled from the spec: `isKnown(name) -> boolean`, membership in the
fixed registry. -/
def isKnown (n : String) : Bool := knownAgents.contains n

/-! ### Pattern Extractor -/

/-- Modelled from the spec: the two-part filter — keep a candidate name only
if it contains the substring "agent" case-insensitively, or it is present
verbatim in the Known-Agent Registry. -/
def keepName (n : String) : Bool :=
  listContainsSub (lowerList ("agent".data)) (lowerList n.data) || isKnown n

/-- Modelled from the spec: list-item pattern family on one line — a line
beginning with a dash, then a hyphenated identifier, then a colon, then a
free-text description up to the next line or parenthesis; both captures
trimmed. -/
def family1Line (line : List Char) : Option (String × String) :=
  match line with
  | '-' :: rest =>
    let r1 := rest.dropWhile Char.isWhitespace
    let nm := r1.takeWhile isIdentChar
    let r2 := r1.dropWhile isIdentChar
    if nm.isEmpty then none
    else
      match r2.dropWhile Char.isWhitespace with
      | ':' :: descCs =>
        some (String.mk (trimChars nm),
              String.mk (trimChars (descCs.takeWhile (fun c => c ≠ '('))))
      | _ => none
  | _ => none

/-- Modelled from the spec: apply the list-item family to every line of the
text. -/
def family1 (text : String) : List (String × String) :=
  (splitOnChar '\n' text.data).filterMap family1Line

/-- Modelled from the spec: key-value pattern — a quoted identifier, a colon,
a quoted description.  `cs` is the text after an opening quote. -/
def tryQuoted (cs : List Char) : Option (String × String) :=
  let nm := cs.takeWhile (fun c => c ≠ '"')
  if nm.isEmpty || !(nm.all isIdentChar) then none
  else
    match cs.dropWhile (fun c => c ≠ '"') with
    | '"' :: r1 =>
      match r1.dropWhile Char.isWhitespace with
      | ':' :: r2 =>
        match r2.dropWhile Char.isWhitespace with
        | '"' :: r3 =>
          match r3.dropWhile (fun c => c ≠ '"') with
          | '"' :: _ =>
            some (String.mk (trimChars nm),
                  String.mk (trimChars (r3.takeWhile (fun c => c ≠ '"'))))
          | _ => none
        | _ => none
      | _ => none
    | _ => none

/-- Modelled from the spec: scan the whole text for key-value matches. -/
def fam2Go : List Char → List (String × String)
  | [] => []
  | c :: rest =>
    (if c = '"' then (tryQuoted rest).toList else []) ++ fam2Go rest

/-- Modelled from the spec: key-value family over the whole text. -/
def family2 (text : String) : List (String × String) := fam2Go text.data

/-- Modelled from the spec: narrative pattern at one position — a hyphenated
identifier followed by the literal word "agent" (case-insensitive), a
separator, then a free-text description up to line end; the captured name is
the identifier together with the word "agent". -/
def tryNarrative (cs : List Char) : Option (String × String) :=
  let ident := cs.takeWhile isIdentChar
  if ident.isEmpty then none
  else
    let r1 := cs.dropWhile isIdentChar
    let r2 := r1.dropWhile (fun c => c = ' ')
    if r1.length = r2.length then none
    else
      match lowerList (r2.take 5) with
      | ['a', 'g', 'e', 'n', 't'] =>
        let r3 := (r2.drop 5).dropWhile (fun c => c = ' ')
        match r3 with
        | ':' :: descCs =>
          some (String.mk (trimChars ident) ++ " agent",
                String.mk (trimChars descCs))
        | '-' :: descCs =>
          some (String.mk (trimChars ident) ++ " agent",
                String.mk (trimChars descCs))
        | _ => none
      | _ => none

/-- Modelled from the spec: scan one line for narrative matches, attempting
only at word boundaries. -/
def fam3Go : Bool → List Char → List (String × String)
  | _, [] => []
  | atBoundary, c :: rest =>
    (if atBoundary then (tryNarrative (c :: rest)).toList else []) ++
      fam3Go (!(isIdentChar c)) rest

/-- Modelled from the spec: narrative family over every line of the text. -/
def family3 (text : String) : List (String × String) :=
  (splitOnChar '\n' text.data).flatMap (fam3Go true)

/-- Modelled from the spec: `extract(text) -> sequence of AgentDescriptor` —
the three pattern families applied in a fixed order to the whole text, each
raw match trimmed, kept only if it passes the two-part filter. -/
def extract (text : String) : List (String × String) :=
  (family1 text ++ family2 text ++ family3 text).filter (fun d => keepName d.1)

/-! ### Serialization and the AgentSet -/

/-- Modelled from the spec: the canonical serialization of an
AgentDescriptor, `"{name}:{description}"`. -/
def serialize (d : String × String) : String := d.1 ++ ":" ++ d.2

/-- Insert a serialized descriptor into the AgentSet, keeping uniqueness over
the full serialized string. -/
def insertAgent (s : List String) (a : String) : List String :=
  if a ∈ s then s else s ++ [a]

/-- Insert a batch of serialized descriptors. -/
def insertAll (s : List String) (as : List String) : List String :=
  as.foldl insertAgent s

/-! ### Source Scanner -/

/-- The result of attempting to read one candidate file: missing, readable
with some text, or unreadable (permission, encoding or I/O error). -/
inductive ReadResult : Type
  | missing : ReadResult
  | unreadable : ReadResult
  | content : String → ReadResult
deriving DecidableEq

/-- Whether a read attempt produced text. -/
def ReadResult.isContent : ReadResult → Bool
  | .content _ => true
  | _ => false

/-- The configuration sources of one run: the environment variable (absent
when unset) and the read results of the fixed ordered candidate file list. -/
structure Sources : Type where
  envVar : Option String
  files : List ReadResult
deriving DecidableEq

/-- Modelled from the spec: the environment variable holds a comma-separated
list of bare agent names; each token, trimmed, becomes a descriptor with an
implicitly empty description, bypassing the Pattern Extractor. -/
def envTokens : Option String → List (String × String)
  | none => []
  | some s => (splitOnChar ',' s.data).map (fun t => (String.mk (trimChars t), ""))

/-- Modelled from the spec: process one file read result — extracted
descriptors of readable text are accumulated, missing and unreadable sources
contribute nothing (fail-soft). -/
def readSource (acc : List String) : ReadResult → List String
  | .content t => insertAll acc ((extract t).map serialize)
  | _ => acc

/-- Modelled from the spec: `scan() -> AgentSet` — environment variable
first, then every candidate file in the fixed order, accumulating serialized
descriptors into one set. -/
def scan (src : Sources) : List String :=
  src.files.foldl readSource (insertAll [] ((envTokens src.envVar).map serialize))

/-! ### Fallback Provider -/

/-- Modelled from the spec: the fixed default descriptor set covering the
baseline capability roster (research, code search, QA, error diagnosis,
orchestration, architecture, performance, security, product planning,
deployment, test repair, code review). -/
def defaultAgents : List (String × String) :=
  [("researcher", "General-purpose research"),
   ("code-searcher", "Locate functions and code in codebase"),
   ("qa-engineer", "Quality assurance"),
   ("error-diagnostician", "Diagnose errors"),
   ("orchestrator", "Coordinate multi-step work"),
   ("architect", "System architecture"),
   ("performance-optimizer", "Performance analysis"),
   ("security-auditor", "Security review"),
   ("product-planner", "Product planning"),
   ("deployer", "Deployment"),
   ("test-fixer", "Repair failing tests"),
   ("code-reviewer", "Code review")]

/-- Modelled from the spec: `defaults() -> AgentSet`, the serialized fixed
default set. -/
def defaultsList : List String := defaultAgents.map serialize

/-! ### Publisher -/

instance decStrLeRel : DecidableRel (fun a b : String => strLe a b = true) :=
  fun a b => inferInstanceAs (Decidable (strLe a b = true))

/-- Modelled from the spec: the Publisher's sorting step — the set's
serialized strings in ordinary case-sensitive lexicographic order. -/
def publishLines (agents : List String) : List String :=
  List.insertionSort (fun a b => strLe a b = true) agents

/-- Modelled from the spec: `publish(agents)` writes the sorted lines to the
output file and then the same lines, in the same order, to standard output;
the pair is (file lines, stream lines). -/
def publish (agents : List String) : List String × List String :=
  (publishLines agents, publishLines agents)

/-- Modelled from the spec: the Fallback Provider is invoked exactly when the
scanner's result set is empty. -/
def withFallback (s : List String) : List String :=
  if s.isEmpty then defaultsList else s

/-- Modelled from the spec: one full run — scan, fall back on an empty set,
publish; the result is the published line list. -/
def runEngine (src : Sources) : List String :=
  publishLines (withFallback (scan src))

/-! ### The REST client example (`src/examples/python-client.py`) -/

/-- A JSON-ish value appearing in request parameters and payloads. -/
inductive PVal : Type
  | str : String → PVal
  | num : Nat → PVal
  | obj : List (String × String) → PVal
deriving DecidableEq

/-- The HTTP verb of a request. -/
inductive HttpVerb : Type
  | get : HttpVerb
  | post : HttpVerb
deriving DecidableEq

/-- The request a client method hands to the `requests` library: verb, URL,
query parameters, optional JSON body, and headers. -/
structure HttpRequest : Type where
  verb : HttpVerb
  url : String
  params : List (String × PVal)
  jsonBody : Option (List (String × PVal))
  headers : List (String × Option String)
deriving DecidableEq

/-- An HTTP response: status code and (parsed) JSON body. -/
structure HttpResponse : Type where
  status : Nat
  body : String
deriving DecidableEq

/-- `requests.Response.raise_for_status`: raises `HTTPError` exactly for 4xx
and 5xx status codes, otherwise returns normally. -/
def raise_for_status (r : HttpResponse) : Except Nat Unit :=
  if 400 ≤ r.status ∧ r.status < 600 then Except.error r.status else Except.ok ()

/-- The common tail of every client method: `response.raise_for_status()`
followed by `return response.json()`. -/
def completeRequest (r : HttpResponse) : Except Nat String :=
  match raise_for_status r with
  | Except.error e => Except.error e
  | Except.ok _ => Except.ok r.body

/-- `ExocortexClient`: its only state, set once in `__init__`. -/
structure ExocortexClient : Type where
  base_url : String
  api_key : Option String
  headers : List (String × Option String)
deriving DecidableEq

/-- `ExocortexClient.__init__(host, port, api_key)`. -/
def ExocortexClient.init (host : String) (port : Nat) (api_key : Option String) :
    ExocortexClient :=
  { base_url := "http://" ++ host ++ ":" ++ toString port ++ "/api"
  , api_key := api_key
  , headers := [("X-API-Key", api_key), ("Content-Type", some ("application/json"))] }

/-- One client method call: the client value after the call (no method ever
assigns to `self`, so it is the receiver unchanged), the HTTP request issued,
and the response-handling continuation. -/
structure MethodCall : Type where
  self : ExocortexClient
  request : HttpRequest
  complete : HttpResponse → Except Nat String

/-- Python truthiness of an optional string argument (`None` and `""` are
falsy). -/
def truthyOpt : Option String → Bool
  | none => false
  | some s => !(s = "")

/-- Python `x or {}` on an optional dict argument: `None` (and the falsy
empty dict) becomes the empty object. -/
def pyOrEmptyObj : Option (List (String × String)) → List (String × String)
  | none => []
  | some l => if l.isEmpty then [] else l

/-- `health_check`: GET `{base_url}/health`. -/
def ExocortexClient.health_check (c : ExocortexClient) : MethodCall :=
  { self := c
  , request := { verb := HttpVerb.get, url := c.base_url ++ "/health",
                 params := [], jsonBody := none, headers := c.headers }
  , complete := completeRequest }

/-- `sparql_query`: POST `{base_url}/sparql` with `{"query": query}`. -/
def ExocortexClient.sparql_query (c : ExocortexClient) (query : String) : MethodCall :=
  { self := c
  , request := { verb := HttpVerb.post, url := c.base_url ++ "/sparql",
                 params := [], jsonBody := some ([("query", PVal.str query)]),
                 headers := c.headers }
  , complete := completeRequest }

/-- `nlp_query`: POST `{base_url}/nlp` with `{"q": query}`. -/
def ExocortexClient.nlp_query (c : ExocortexClient) (query : String) : MethodCall :=
  { self := c
  , request := { verb := HttpVerb.post, url := c.base_url ++ "/nlp",
                 params := [], jsonBody := some ([("q", PVal.str query)]),
                 headers := c.headers }
  , complete := completeRequest }

/-- `search_assets(keyword=None, asset_class=None, limit=20)`: GET
`{base_url}/assets`; `q` and `class` are added only when truthy, `limit`
always. -/
def ExocortexClient.search_assets (c : ExocortexClient)
    (keyword : Option String) (asset_class : Option String)
    (limit : Nat := 20) : MethodCall :=
  let params : List (String × PVal) := []
  let params :=
    match keyword with
    | some k => if k = "" then params else params ++ [("q", PVal.str k)]
    | none => params
  let params :=
    match asset_class with
    | some a => if a = "" then params else params ++ [("class", PVal.str a)]
    | none => params
  let params := params ++ [("limit", PVal.num limit)]
  { self := c
  , request := { verb := HttpVerb.get, url := c.base_url ++ "/assets",
                 params := params, jsonBody := none, headers := c.headers }
  , complete := completeRequest }

/-- `create_asset(name, asset_class, properties=None)`: POST
`{base_url}/assets/create` with `{"name": ..., "class": ...,
"properties": properties or \x7b\x7d}`. -/
def ExocortexClient.create_asset (c : ExocortexClient)
    (name : String) (asset_class : String)
    (properties : Option (List (String × String)) := none) : MethodCall :=
  { self := c
  , request := { verb := HttpVerb.post, url := c.base_url ++ "/assets/create",
                 params := []
               , jsonBody := some ([("name", PVal.str name),
                                    ("class", PVal.str asset_class),
                                    ("properties", PVal.obj (pyOrEmptyObj properties))])
               , headers := c.headers }
  , complete := completeRequest }

/-- `get_graph_triples(subject=None, predicate=None, object=None,
limit=100)`: GET `{base_url}/graph`; `limit` first, then `s`, `p`, `o`
only when truthy. -/
def ExocortexClient.get_graph_triples (c : ExocortexClient)
    (subject : Option String) (predicate : Option String)
    (object : Option String) (limit : Nat := 100) : MethodCall :=
  let params : List (String × PVal) := [("limit", PVal.num limit)]
  let params :=
    match subject with
    | some s => if s = "" then params else params ++ [("s", PVal.str s)]
    | none => params
  let params :=
    match predicate with
    | some p => if p = "" then params else params ++ [("p", PVal.str p)]
    | none => params
  let params :=
    match object with
    | some o => if o = "" then params else params ++ [("o", PVal.str o)]
    | none => params
  { self := c
  , request := { verb := HttpVerb.get, url := c.base_url ++ "/graph",
                 params := params, jsonBody := none, headers := c.headers }
  , complete := completeRequest }

/-- `add_triple(subject, predicate, object)`: POST `{base_url}/graph`. -/
def ExocortexClient.add_triple (c : ExocortexClient)
    (subject : String) (predicate : String) (object : String) : MethodCall :=
  { self := c
  , request := { verb := HttpVerb.post, url := c.base_url ++ "/graph",
                 params := []
               , jsonBody := some ([("operation", PVal.str ("add")),
                                    ("subject", PVal.str subject),
                                    ("predicate", PVal.str predicate),
                                    ("object", PVal.str object)])
               , headers := c.headers }
  , complete := completeRequest }

/-- `ontologize_relations(asset_path)`: POST `{base_url}/relations/ontologize`. -/
def ExocortexClient.ontologize_relations (c : ExocortexClient)
    (asset_path : String) : MethodCall :=
  { self := c
  , request := { verb := HttpVerb.post, url := c.base_url ++ "/relations/ontologize",
                 params := []
               , jsonBody := some ([("assetPath", PVal.str asset_path)])
               , headers := c.headers }
  , complete := completeRequest }

/-- `set_focus(context, filters=None)`: POST `{base_url}/focus` with
`{"context": ..., "filters": filters or \x7b\x7d}`. -/
def ExocortexClient.set_focus (c : ExocortexClient)
    (context : String) (filters : Option (List (String × String)) := none) :
    MethodCall :=
  { self := c
  , request := { verb := HttpVerb.post, url := c.base_url ++ "/focus",
                 params := []
               , jsonBody := some ([("context", PVal.str context),
                                    ("filters", PVal.obj (pyOrEmptyObj filters))])
               , headers := c.headers }
  , complete := completeRequest }

/-- `get_focus()`: GET `{base_url}/focus`. -/
def ExocortexClient.get_focus (c : ExocortexClient) : MethodCall :=
  { self := c
  , request := { verb := HttpVerb.get, url := c.base_url ++ "/focus",
                 params := [], jsonBody := none, headers := c.headers }
  , complete := completeRequest }

/-- `search_vault(query)`: GET `{base_url}/vault/search` with `q` param. -/
def ExocortexClient.search_vault (c : ExocortexClient) (query : String) : MethodCall :=
  { self := c
  , request := { verb := HttpVerb.get, url := c.base_url ++ "/vault/search",
                 params := [("q", PVal.str query)], jsonBody := none,
                 headers := c.headers }
  , complete := completeRequest }

/-- `list_vault_files()`: GET `{base_url}/vault/files`. -/
def ExocortexClient.list_vault_files (c : ExocortexClient) : MethodCall :=
  { self := c
  , request := { verb := HttpVerb.get, url := c.base_url ++ "/vault/files",
                 params := [], jsonBody := none, headers := c.headers }
  , complete := completeRequest }

/-! ### Order lemmas for the publisher's sort relation -/

theorem charListLe_total : ∀ as bs : List Char,
    charListLe as bs = true ∨ charListLe bs as = true
  | [], _ => Or.inl rfl
  | _ :: _, [] => Or.inr rfl
  | a :: as, b :: bs => by
    by_cases hab : a.toNat < b.toNat
    · left; simp [charListLe, hab]
    · by_cases hba : b.toNat < a.toNat
      · right; simp [charListLe, hba]
      · have hv : a = b := Char.ext (UInt32.ext (Nat.le_antisymm
          (Nat.le_of_not_lt hba) (Nat.le_of_not_lt hab)))
        subst hv
        rcases charListLe_total as bs with h | h
        · left; simp [charListLe, hab, h]
        · right; simp [charListLe, hab, h]

theorem charListLe_trans : ∀ as bs cs : List Char,
    charListLe as bs = true → charListLe bs cs = true → charListLe as cs = true
  | [], _, _ => fun _ _ => rfl
  | _ :: _, [], _ => fun h _ => by simp [charListLe] at h
  | _ :: _, _ :: _, [] => fun _ h => by simp [charListLe] at h
  | a :: as, b :: bs, c :: cs => by
    intro h1 h2
    simp only [charListLe] at h1 h2 ⊢
    by_cases hab : a.toNat < b.toNat
    · by_cases hbc : b.toNat < c.toNat
      · simp [Nat.lt_trans hab hbc]
      · rw [if_neg hbc] at h2
        by_cases hbceq : b = c
        · subst hbceq
          simp [hab]
        · rw [if_neg hbceq] at h2
          simp at h2
    · rw [if_neg hab] at h1
      by_cases habeq : a = b
      · subst habeq
        rw [if_pos rfl] at h1
        by_cases hac : a.toNat < c.toNat
        · simp [hac]
        · rw [if_neg hac] at h2 ⊢
          by_cases haceq : a = c
          · rw [if_pos haceq] at h2 ⊢
            exact charListLe_trans as bs cs h1 h2
          · rw [if_neg haceq] at h2
            simp at h2
      · rw [if_neg habeq] at h1
        simp at h1

instance strLeTotal : IsTotal String (fun a b => strLe a b = true) :=
  ⟨fun a b => charListLe_total a.data b.data⟩

instance strLeTrans : IsTrans String (fun a b => strLe a b = true) :=
  ⟨fun a b c => charListLe_trans a.data b.data c.data⟩

/-! ### AgentSet lemmas -/

theorem insertAgent_nodup {s : List String} {a : String} (h : s.Nodup) :
    (insertAgent s a).Nodup := by
  unfold insertAgent
  split
  · exact h
  · rename_i hmem
    rw [← List.concat_eq_append]
    exact List.Nodup.concat hmem h

theorem insertAll_nodup : ∀ (as : List String) {s : List String},
    s.Nodup → (insertAll s as).Nodup
  | [], _, h => h
  | a :: as, s, h => by
    unfold insertAll
    rw [List.foldl_cons]
    exact insertAll_nodup as (insertAgent_nodup h)

theorem readSource_nodup {acc : List String} (f : ReadResult) (h : acc.Nodup) :
    (readSource acc f).Nodup := by
  cases f with
  | missing => exact h
  | unreadable => exact h
  | content t => exact insertAll_nodup _ h

theorem foldl_readSource_nodup : ∀ (files : List ReadResult) {acc : List String},
    acc.Nodup → (files.foldl readSource acc).Nodup
  | [], _, h => h
  | f :: fs, acc, h => by
    rw [List.foldl_cons]
    exact foldl_readSource_nodup fs (readSource_nodup f h)

theorem scan_nodup (src : Sources) : (scan src).Nodup :=
  foldl_readSource_nodup src.files (insertAll_nodup _ List.nodup_nil)

theorem mem_insertAgent_of_mem {s : List String} {a b : String} (h : a ∈ s) :
    a ∈ insertAgent s b := by
  unfold insertAgent
  split
  · exact h
  · exact List.mem_append_left _ h

theorem mem_insertAll_of_mem : ∀ (bs : List String) {s : List String} {a : String},
    a ∈ s → a ∈ insertAll s bs
  | [], _, _, h => h
  | b :: bs, s, a, h => by
    unfold insertAll
    rw [List.foldl_cons]
    exact mem_insertAll_of_mem bs (mem_insertAgent_of_mem h)

/-! ### Scanning with no readable source -/

theorem foldl_readSource_no_content : ∀ (files : List ReadResult)
    (acc : List String), (∀ f ∈ files, f.isContent = false) →
    files.foldl readSource acc = acc
  | [], _, _ => rfl
  | f :: fs, acc, h => by
    rw [List.foldl_cons]
    have hf : readSource acc f = acc := by
      cases f with
      | missing => rfl
      | unreadable => rfl
      | content t => simp [ReadResult.isContent] at h
    rw [hf]
    exact foldl_readSource_no_content fs acc (fun g hg => h g (List.mem_cons_of_mem f hg))

theorem scan_no_source (src : Sources) (henv : src.envVar = none)
    (hfiles : ∀ f ∈ src.files, f.isContent = false) : scan src = [] := by
  unfold scan
  rw [henv]
  exact foldl_readSource_no_content src.files _ hfiles

theorem defaultsList_ne_nil : defaultsList ≠ [] := by decide

theorem withFallback_ne_nil (s : List String) : withFallback s ≠ [] := by
  unfold withFallback
  split
  · exact defaultsList_ne_nil
  · rename_i h
    intro hnil
    rw [hnil] at h
    simp at h

theorem publishLines_perm (agents : List String) :
    (publishLines agents).Perm agents :=
  List.perm_insertionSort _ agents

theorem runEngine_ne_nil (src : Sources) : runEngine src ≠ [] := by
  unfold runEngine
  intro h
  have hlen := (publishLines_perm (withFallback (scan src))).length_eq
  rw [h] at hlen
  exact withFallback_ne_nil (scan src) (List.eq_nil_of_length_eq_zero hlen.symm)

theorem serialize_ne_of_desc_ne (n d1 d2 : String) (h : d1 ≠ d2) :
    serialize (n, d1) ≠ serialize (n, d2) := by
  intro he
  apply h
  have hd := congrArg String.data he
  simp only [serialize, String.data_append] at hd
  exact String.ext (List.append_cancel_left hd)

/-! ### The claims -/

/-- C1: if every configuration source is absent or unreadable and the
environment variable is unset, the published output equals the fixed default
set, sorted; and for every run the final published list is non-empty. -/
theorem claim1_fallback_guarantee (src : Sources) :
    (src.envVar = none →
      (∀ f ∈ src.files, ReadResult.isContent f = false) →
      runEngine src = publishLines defaultsList) ∧
    runEngine src ≠ [] := by
  constructor
  · intro henv hfiles
    unfold runEngine
    rw [scan_no_source src henv hfiles]
    rfl
  · exact runEngine_ne_nil src

theorem claim1_fallback_guarantee_witness :
    runEngine ⟨none, [ReadResult.missing, ReadResult.unreadable]⟩ =
      publishLines defaultsList ∧
    runEngine ⟨none, [ReadResult.missing, ReadResult.unreadable]⟩ ≠ [] :=
  ⟨(claim1_fallback_guarantee ⟨none, [ReadResult.missing, ReadResult.unreadable]⟩).1
      rfl (by decide),
   (claim1_fallback_guarantee ⟨none, [ReadResult.missing, ReadResult.unreadable]⟩).2⟩

/-- C2: for a fixed set of source contents, `scan()` followed by `publish()`
yields an identical sorted output across repeated runs — two runs over the
same inputs produce the same list in the same order, both in the output file
and on the standard output channel. -/
theorem claim2_determinism (s1 s2 : Sources)
    (h1 : s1.envVar = s2.envVar) (h2 : s1.files = s2.files) :
    runEngine s1 = runEngine s2 ∧
    publish (withFallback (scan s1)) = publish (withFallback (scan s2)) := by
  obtain ⟨e1, f1⟩ := s1
  obtain ⟨e2, f2⟩ := s2
  simp only at h1 h2
  subst h1
  subst h2
  exact ⟨rfl, rfl⟩

theorem claim2_determinism_witness :
    runEngine ⟨some ("foo,bar"), [ReadResult.missing]⟩ =
      runEngine ⟨some ("foo,bar"), [ReadResult.missing]⟩ ∧
    publish (withFallback (scan ⟨some ("foo,bar"), [ReadResult.missing]⟩)) =
      publish (withFallback (scan ⟨some ("foo,bar"), [ReadResult.missing]⟩)) :=
  claim2_determinism ⟨some ("foo,bar"), [ReadResult.missing]⟩
    ⟨some ("foo,bar"), [ReadResult.missing]⟩ rfl rfl

/-- C3: a serialized descriptor string present in the scanned set — however
many sources fed it — yields exactly one output line; every scanned string
reaches the output; and two descriptors with the same name but different
descriptions have distinct serializations, hence two distinct output lines
(uniqueness is over the full serialized string, not the name alone). -/
theorem claim3_dedup (src : Sources) (a : String) (h : a ∈ scan src) :
    (runEngine src).count a = 1 ∧
    (∀ b, b ∈ scan src → b ∈ runEngine src) ∧
    (∀ n d1 d2 : String, d1 ≠ d2 → serialize (n, d1) ≠ serialize (n, d2)) := by
  have hne : scan src ≠ [] := List.ne_nil_of_mem h
  have hwf : withFallback (scan src) = scan src := by
    unfold withFallback
    rw [if_neg (fun hc => hne (List.isEmpty_iff.mp hc))]
  refine ⟨?_, ?_, ?_⟩
  · unfold runEngine
    rw [hwf, (publishLines_perm (scan src)).count_eq]
    exact List.count_eq_one_of_mem (scan_nodup src) h
  · intro b hb
    unfold runEngine
    rw [hwf]
    exact ((publishLines_perm (scan src)).mem_iff).mpr hb
  · exact fun n d1 d2 hne' => serialize_ne_of_desc_ne n d1 d2 hne'

theorem claim3_dedup_witness :
    ("test-agent:runs tests" ∈
      scan ⟨none, [ReadResult.content ("- test-agent: runs tests"),
                   ReadResult.content ("- test-agent: runs tests")]⟩) ∧
    ((runEngine ⟨none, [ReadResult.content ("- test-agent: runs tests"),
                        ReadResult.content ("- test-agent: runs tests")]⟩).count
        ("test-agent:runs tests") = 1 ∧
     (∀ b, b ∈ scan ⟨none, [ReadResult.content ("- test-agent: runs tests"),
                            ReadResult.content ("- test-agent: runs tests")]⟩ →
        b ∈ runEngine ⟨none, [ReadResult.content ("- test-agent: runs tests"),
                              ReadResult.content ("- test-agent: runs tests")]⟩) ∧
     (∀ n d1 d2 : String, d1 ≠ d2 → serialize (n, d1) ≠ serialize (n, d2))) :=
  ⟨by decide,
   claim3_dedup ⟨none, [ReadResult.content ("- test-agent: runs tests"),
                        ReadResult.content ("- test-agent: runs tests")]⟩
     ("test-agent:runs tests") (by decide)⟩

/-- C4: an unreadable file among the sources is swallowed — the run's output
is identical to the output of the same run with that file removed entirely;
the scan (a total function here) never aborts on a source read error. -/
theorem claim4_fail_soft (env : Option String) (l1 l2 : List ReadResult) :
    runEngine ⟨env, l1 ++ ReadResult.unreadable :: l2⟩ =
      runEngine ⟨env, l1 ++ l2⟩ := by
  have hscan : scan ⟨env, l1 ++ ReadResult.unreadable :: l2⟩ =
      scan ⟨env, l1 ++ l2⟩ := by
    simp [scan, List.foldl_append, readSource]
  unfold runEngine
  rw [hscan]

/-- C5: `extract` on `"- code-searcher: Locate functions and code in
codebase"` yields exactly the descriptor `("code-searcher", "Locate functions
and code in codebase")`, and on `"- banana: a yellow fruit"` yields nothing:
the raw list-item match `("banana", "a yellow fruit")` exists but the name
neither contains "agent" case-insensitively nor is in the Known-Agent
Registry. -/
theorem claim5_filter_precision :
    extract ("- code-searcher: Locate functions and code in codebase") =
      [("code-searcher", "Locate functions and code in codebase")] ∧
    extract ("- banana: a yellow fruit") = [] ∧
    family1 ("- banana: a yellow fruit") = [("banana", "a yellow fruit")] ∧
    keepName ("banana") = false ∧
    keepName ("code-searcher") = true := by
  refine ⟨by decide, by decide, by decide, by decide, by decide⟩

/-- C6: `publish` sorts the set's serialized strings with the ordinary
case-sensitive lexicographic string order, and the output-file lines and the
standard-output lines are the very same sorted sequence (a permutation of the
set's strings). -/
theorem claim6_publisher_sorted (agents : List String) :
    (publish agents).1 = (publish agents).2 ∧
    List.Sorted (fun a b => strLe a b = true) (publish agents).1 ∧
    ((publish agents).1).Perm agents :=
  ⟨rfl, List.sorted_insertionSort _ agents, List.perm_insertionSort _ agents⟩

/-- C7: the REST client is stateless beyond its constructor — every method of
`ExocortexClient`, at every argument, leaves the client value (its fields
`base_url`, `api_key`, `headers`) unchanged, so no method call alters the
behaviour of any later call. -/
theorem claim7_client_frame (c : ExocortexClient) (q1 q2 vq : String)
    (kw ac : Option String) (lim glim : Nat) (nm cls ap ctx : String)
    (props flt : Option (List (String × String)))
    (s p o : Option String) (ts tp tob : String) :
    (c.health_check).self = c ∧
    (c.sparql_query q1).self = c ∧
    (c.nlp_query q2).self = c ∧
    (c.search_assets kw ac lim).self = c ∧
    (c.create_asset nm cls props).self = c ∧
    (c.get_graph_triples s p o glim).self = c ∧
    (c.add_triple ts tp tob).self = c ∧
    (c.ontologize_relations ap).self = c ∧
    (c.set_focus ctx flt).self = c ∧
    (c.get_focus).self = c ∧
    (c.search_vault vq).self = c ∧
    (c.list_vault_files).self = c :=
  ⟨rfl, rfl, rfl, rfl, rfl, rfl, rfl, rfl, rfl, rfl, rfl, rfl⟩

/-- C8: every public method's response handling is `raise_for_status`
followed by returning the parsed JSON body: the common continuation is an
error exactly on a 4xx/5xx status and otherwise the body — so a method
returns normally if and only if the response status is a success, never a
`None` or partial result — and every method installs that continuation. -/
theorem claim8_raise_before_return (c : ExocortexClient) (resp : HttpResponse)
    (q1 q2 vq : String) (kw ac : Option String) (lim glim : Nat)
    (nm cls ap ctx : String) (props flt : Option (List (String × String)))
    (s p o : Option String) (ts tp tob : String) :
    (completeRequest resp =
      if 400 ≤ resp.status ∧ resp.status < 600 then Except.error resp.status
      else Except.ok resp.body) ∧
    ((completeRequest resp).isOk = true ↔
      ¬(400 ≤ resp.status ∧ resp.status < 600)) ∧
    ((c.health_check).complete = completeRequest ∧
     (c.sparql_query q1).complete = completeRequest ∧
     (c.nlp_query q2).complete = completeRequest ∧
     (c.search_assets kw ac lim).complete = completeRequest ∧
     (c.create_asset nm cls props).complete = completeRequest ∧
     (c.get_graph_triples s p o glim).complete = completeRequest ∧
     (c.add_triple ts tp tob).complete = completeRequest ∧
     (c.ontologize_relations ap).complete = completeRequest ∧
     (c.set_focus ctx flt).complete = completeRequest ∧
     (c.get_focus).complete = completeRequest ∧
     (c.search_vault vq).complete = completeRequest ∧
     (c.list_vault_files).complete = completeRequest) := by
  have hc : completeRequest resp =
      if 400 ≤ resp.status ∧ resp.status < 600 then Except.error resp.status
      else Except.ok resp.body := by
    unfold completeRequest raise_for_status
    by_cases h : 400 ≤ resp.status ∧ resp.status < 600
    · rw [if_pos h, if_pos h]
    · rw [if_neg h, if_neg h]
  refine ⟨hc, ?_, rfl, rfl, rfl, rfl, rfl, rfl, rfl, rfl, rfl, rfl, rfl, rfl⟩
  rw [hc]
  by_cases h : 400 ≤ resp.status ∧ resp.status < 600
  · rw [if_pos h]
    simp [Except.isOk, Except.toBool, h]
  · rw [if_neg h]
    simp [Except.isOk, Except.toBool, h]

/-- C9: `search_assets` always sends `limit` (default 20), sends `q` exactly
when `keyword` is truthy and `class` exactly when `asset_class` is truthy —
an empty string behaves like an omitted argument — and `get_graph_triples`
behaves analogously with `limit` (default 100) always present and `s`, `p`,
`o` present only for truthy arguments. -/
theorem claim9_param_truthiness (c : ExocortexClient)
    (keyword asset_class : Option String) (limit : Nat)
    (subject predicate object : Option String) (glimit : Nat) :
    (List.lookup ("limit")
        ((c.search_assets keyword asset_class limit).request.params)
      = some (PVal.num limit)) ∧
    ((List.lookup ("q")
        ((c.search_assets keyword asset_class limit).request.params)).isSome
      = truthyOpt keyword) ∧
    ((List.lookup ("class")
        ((c.search_assets keyword asset_class limit).request.params)).isSome
      = truthyOpt asset_class) ∧
    (c.search_assets (some ("")) asset_class limit
      = c.search_assets none asset_class limit) ∧
    (List.lookup ("limit") ((c.search_assets keyword asset_class).request.params)
      = some (PVal.num 20)) ∧
    (List.lookup ("limit")
        ((c.get_graph_triples subject predicate object glimit).request.params)
      = some (PVal.num glimit)) ∧
    ((List.lookup ("s")
        ((c.get_graph_triples subject predicate object glimit).request.params)).isSome
      = truthyOpt subject) ∧
    ((List.lookup ("p")
        ((c.get_graph_triples subject predicate object glimit).request.params)).isSome
      = truthyOpt predicate) ∧
    ((List.lookup ("o")
        ((c.get_graph_triples subject predicate object glimit).request.params)).isSome
      = truthyOpt object) ∧
    (List.lookup ("limit")
        ((c.get_graph_triples subject predicate object).request.params)
      = some (PVal.num 100)) := by
  refine ⟨?_, ?_, ?_, ?_, ?_, ?_, ?_, ?_, ?_, ?_⟩
  · rcases keyword with _ | k <;> rcases asset_class with _ | a <;>
      simp only [ExocortexClient.search_assets] <;>
      (try split_ifs) <;> simp [List.lookup]
  · rcases keyword with _ | k <;> rcases asset_class with _ | a <;>
      simp only [ExocortexClient.search_assets, truthyOpt] <;>
      (try split_ifs) <;> simp_all [List.lookup]
  · rcases keyword with _ | k <;> rcases asset_class with _ | a <;>
      simp only [ExocortexClient.search_assets, truthyOpt] <;>
      (try split_ifs) <;> simp_all [List.lookup]
  · rcases asset_class with _ | a <;>
      simp only [ExocortexClient.search_assets] <;> (try split_ifs) <;> simp_all
  · rcases keyword with _ | k <;> rcases asset_class with _ | a <;>
      simp only [ExocortexClient.search_assets] <;>
      (try split_ifs) <;> simp [List.lookup]
  · rcases subject with _ | s <;> rcases predicate with _ | p <;>
      rcases object with _ | o <;>
      simp only [ExocortexClient.get_graph_triples] <;>
      (try split_ifs) <;> simp [List.lookup]
  · rcases subject with _ | s <;> rcases predicate with _ | p <;>
      rcases object with _ | o <;>
      simp only [ExocortexClient.get_graph_triples, truthyOpt] <;>
      (try split_ifs) <;> simp_all [List.lookup]
  · rcases subject with _ | s <;> rcases predicate with _ | p <;>
      rcases object with _ | o <;>
      simp only [ExocortexClient.get_graph_triples, truthyOpt] <;>
      (try split_ifs) <;> simp_all [List.lookup]
  · rcases subject with _ | s <;> rcases predicate with _ | p <;>
      rcases object with _ | o <;>
      simp only [ExocortexClient.get_graph_triples, truthyOpt] <;>
      (try split_ifs) <;> simp_all [List.lookup]
  · rcases subject with _ | s <;> rcases predicate with _ | p <;>
      rcases object with _ | o <;>
      simp only [ExocortexClient.get_graph_triples] <;>
      (try split_ifs) <;> simp [List.lookup]

/-- C10: `create_asset` always sends a payload with exactly the keys `name`,
`class`, `properties`, where a `None` (or otherwise falsy) `properties`
argument is normalized to the empty object; `set_focus` likewise normalizes a
`None` `filters` argument to the empty object. -/
theorem claim10_payload_normalization (c : ExocortexClient) (n ac : String)
    (p : Option (List (String × String))) (ctx : String)
    (f : Option (List (String × String))) :
    (((c.create_asset n ac p).request.jsonBody).map (fun l => l.map Prod.fst)
      = some (["name", "class", "properties"])) ∧
    ((c.create_asset n ac p).request.jsonBody
      = some ([("name", PVal.str n), ("class", PVal.str ac),
               ("properties", PVal.obj (pyOrEmptyObj p))])) ∧
    pyOrEmptyObj none = [] ∧
    pyOrEmptyObj (some []) = [] ∧
    ((c.set_focus ctx f).request.jsonBody
      = some ([("context", PVal.str ctx),
               ("filters", PVal.obj (pyOrEmptyObj f))])) :=
  ⟨rfl, rfl, rfl, rfl, rfl⟩

end Exo
